import Mathlib

/-!
Verification development for the campus-event pipeline
(ingest_agent.py, dedupe_agent.py, classify_agent.py, db_init.py).

The Python sources are embedded shallowly:

* strings are Lean `String`s, manipulated through explicit `List Char`
  helpers that mirror Python's `str.strip`, `str.split`, `str.join`,
  `str.lower`, slicing, and the concrete regular expressions appearing in
  the sources (each regex is turned into a dedicated matching function);
* `datetime` values are modelled as calendar fields and as total second
  counts (`datetime.fromisoformat` becomes `parse_iso_datetime`,
  differences of datetimes become differences of second counts);
* the SQLite tables become Lean structures holding lists of rows; an SQL
  statement is modelled by its effect on those lists, and - where a claim
  depends on it - by the validity of its column list against the schema of
  the table it addresses (an INSERT or SELECT naming a column that the
  schema lacks raises sqlite3.OperationalError, modelled as `Except.error`).

Whitespace note: Python's `str.strip` and the regex class `\s` cover a set
of Unicode whitespace characters; the model covers the ASCII whitespace
characters (space, tab, newline, carriage return, vertical tab, form feed),
which are the only whitespace characters produced by the pipeline's inputs.
Word characters (`\w`, used for `\b` boundaries) are modelled as ASCII
alphanumerics plus underscore.
-/

namespace CampusEvents

/-- Python whitespace (ASCII subset): the characters stripped by
`str.strip()` and matched by the regex class `\s`. -/
def pyIsSpace (c : Char) : Bool :=
  c = ' ' || c = '\t' || c = '\n' || c = '\x0d' || c = '\x0b' || c = '\x0c'

/-- `str.strip()` on a character list: drop leading and trailing
whitespace. -/
def pyStripCA (cs : List Char) : List Char :=
  ((cs.dropWhile pyIsSpace).reverse.dropWhile pyIsSpace).reverse

/-- `str.strip()`. -/
def pyStrip (s : String) : String :=
  String.mk (pyStripCA s.data)

/-- `str.lower()` (ASCII case folding, matching the sources' ASCII
keyword/marker texts). -/
def lowerCA (cs : List Char) : List Char :=
  cs.map Char.toLower

/-- Does `pre` occur at the head of `cs`? (Used to model anchored regex
fragments and substring search.) -/
def hasPrefixCA (pre cs : List Char) : Bool :=
  decide (cs.take pre.length = pre)

/-- Index of the first occurrence of `sep` in `cs`, if any. -/
def findSep (sep : List Char) : List Char → Option Nat
  | [] => if sep.isEmpty then some 0 else none
  | c :: cs =>
    if hasPrefixCA sep (c :: cs) then some 0
    else (findSep sep cs).map (· + 1)

/-- Worker for `splitCA`: split at every occurrence of `sep`, spending one
unit of fuel per split.  Each split strictly shortens the remaining list
(a non-empty separator is consumed), so fuel equal to the list's length is
always sufficient; the fuel only makes the recursion structural. -/
def splitGo (sep : List Char) : Nat → List Char → List (List Char)
  | 0, cs => [cs]
  | fuel + 1, cs =>
    match findSep sep cs with
    | none => [cs]
    | some i => cs.take i :: splitGo sep fuel (cs.drop (i + sep.length))

/-- `str.split(sep)` for a non-empty separator, on character lists:
split at every occurrence of `sep`. -/
def splitCA (sep : List Char) (cs : List Char) : List (List Char) :=
  if sep.isEmpty then [cs] else splitGo sep cs.length cs

/-- `str.split(sep)`. -/
def pySplit (s sep : String) : List String :=
  (splitCA sep.data s.data).map String.mk

/-- `sep.join(pieces)` on character lists. -/
def joinCA (sep : List Char) : List (List Char) → List Char
  | [] => []
  | [p] => p
  | p :: ps => p ++ sep ++ joinCA sep ps

/-- `sep.join(pieces)`. -/
def pyJoin (sep : String) (pieces : List String) : String :=
  String.mk (joinCA sep.data (pieces.map String.data))

/-! ## Datetimes

`datetime.fromisoformat` (dedupe_agent.parse_iso_datetime) is modelled on
the ISO-8601 strings this pipeline stores: `YYYY-MM-DD` optionally followed
by `T` or a space and `HH:MM` or `HH:MM:SS`.  A parsed datetime is reduced
to a total count of seconds on the proleptic Gregorian calendar so that
`(existing_dt - dt_obj).total_seconds()` becomes a subtraction. -/

def digitVal (c : Char) : Nat := c.toNat - 48

/-- Read exactly `n` decimal digits, returning their value and the rest. -/
def readFixedDigits : Nat → Nat → List Char → Option (Nat × List Char)
  | 0, acc, cs => some (acc, cs)
  | _ + 1, _, [] => none
  | n + 1, acc, c :: cs =>
    if c.isDigit then readFixedDigits n (acc * 10 + digitVal c) cs else none

def expectCh (c : Char) : List Char → Option (List Char)
  | [] => none
  | x :: xs => if x = c then some xs else none

def isLeapYear (y : Nat) : Bool :=
  y % 4 == 0 && (y % 100 != 0 || y % 400 == 0)

def daysInMonth (y m : Nat) : Nat :=
  if m = 2 then (if isLeapYear y then 29 else 28)
  else if m = 4 || m = 6 || m = 9 || m = 11 then 30
  else 31

/-- Days of the proleptic Gregorian calendar date `(y, m, d)` counted from
March 1 of year 0 (standard civil-from-days formula, `y ≥ 1`). -/
def daysFromCivil (y m d : Nat) : Nat :=
  let yy := if m ≤ 2 then y - 1 else y
  let mm := if m ≤ 2 then m + 9 else m - 3
  yy * 365 + yy / 4 - yy / 100 + yy / 400 + (153 * mm + 2) / 5 + d - 1

def totalSecondsOf (y mo d h mi s : Nat) : Nat :=
  daysFromCivil y mo d * 86400 + h * 3600 + mi * 60 + s

/-- Parse an optional `HH:MM[:SS]` suffix (already past the date and the
`T`-or-space separator); returns `(hour, minute, second)`. -/
def parseIsoTime (cs : List Char) : Option (Nat × Nat × Nat) := do
  let (h, cs) ← readFixedDigits 2 0 cs
  let cs ← expectCh ':' cs
  let (mi, cs) ← readFixedDigits 2 0 cs
  if h ≤ 23 ∧ mi ≤ 59 then
    match cs with
    | [] => some (h, mi, 0)
    | _ =>
      let cs ← expectCh ':' cs
      let (s, cs) ← readFixedDigits 2 0 cs
      if s ≤ 59 ∧ cs = [] then some (h, mi, s) else none
  else none

/-- dedupe_agent.parse_iso_datetime: `datetime.fromisoformat(dt_str)` with
`None` on failure, reduced to total seconds. -/
def parse_iso_datetime (str : String) : Option Nat := do
  let cs := str.data
  let (y, cs) ← readFixedDigits 4 0 cs
  let cs ← expectCh '-' cs
  let (mo, cs) ← readFixedDigits 2 0 cs
  let cs ← expectCh '-' cs
  let (d, cs) ← readFixedDigits 2 0 cs
  if 1 ≤ y ∧ 1 ≤ mo ∧ mo ≤ 12 ∧ 1 ≤ d ∧ d ≤ daysInMonth y mo then
    match cs with
    | [] => some (totalSecondsOf y mo d 0 0 0)
    | c :: rest =>
      if c = 'T' ∨ c = ' ' then
        let (h, mi, s) ← parseIsoTime rest
        some (totalSecondsOf y mo d h mi s)
      else none
  else none

/-! ## The events and raw_events tables (dedupe_agent.py, db_init.py) -/

/-- One row of the `events` table as created by
dedupe_agent.init_events_table (columns id, title, datetime, location,
description, sources). -/
structure EventRow where
  id : Nat
  title : String
  datetime : String
  location : String
  description : String
  sources : String
  deriving DecidableEq

/-- One row of the `raw_events` table (columns used by
dedupe_agent.dedupe_raw_events: id, title, datetime, location, description,
source). -/
structure RawRow where
  id : Nat
  title : String
  datetime : String
  location : String
  description : String
  source : String
  deriving DecidableEq

/-- The database state seen by the dedupe pass: the `raw_events` rows it
reads, the `events` rows, and the next AUTOINCREMENT id for `events`. -/
structure Db where
  raw : List RawRow
  evs : List EventRow
  nextId : Nat
  deriving DecidableEq

/-- Python `location or ""` (on the string model: `None` locations do not
occur in rows produced by this pipeline, and `"" or ""` is `""`). -/
def pyOrEmpty (s : String) : String := if s = "" then "" else s

/-- dedupe_agent.find_matching_event: fetch the `events` rows with the same
title and location, then return the first whose stored datetime parses and
lies within 300 seconds of `dt`; rows whose datetime fails to parse are
skipped.  The model returns the whole matching row (the source selects its
id, datetime, sources and description). -/
def find_matching_event (evs : List EventRow) (title : String) (dt : Nat)
    (location : String) : Option EventRow :=
  (evs.filter (fun r => r.title == title && r.location == location)).find?
    (fun r =>
      match parse_iso_datetime r.datetime with
      | none => false
      | some d => decide (((d : Int) - (dt : Int)).natAbs ≤ 5 * 60))

/-- dedupe_agent.dedupe_raw_events lines 117-121: rebuild the
comma-separated sources list (strip each piece, drop empties). -/
def sourcesList (s : String) : List String :=
  ((pySplit s ",").map pyStrip).filter (fun x => x != "")

/-- The separator joining merged description fragments. -/
def descSep : String := "\n---\n"

/-- dedupe_agent.dedupe_raw_events lines 124-127: the stored description
split into trimmed, non-empty fragments. -/
def fragmentsList (s : String) : List String :=
  ((pySplit s descSep).map pyStrip).filter (fun x => x != "")

/-- dedupe_agent.dedupe_raw_events lines 117-121: append `source` to the
parsed sources list when absent, and re-join with commas. -/
def mergeSources (existing source : String) : String :=
  let l := sourcesList existing
  let l := if l.contains source then l else l ++ [source]
  pyJoin "," l

/-- dedupe_agent.dedupe_raw_events lines 123-127: append the trimmed
description to the parsed fragment list when non-empty and absent, and
re-join with the separator. -/
def mergeDesc (existing description : String) : String :=
  let l := fragmentsList existing
  let d := pyStrip description
  let l := if d != "" && !(l.contains d) then l ++ [d] else l
  pyJoin descSep l

/-- The UPDATE of dedupe_agent.dedupe_raw_events lines 130-137 at the value
level: set sources and description (computed from the fetched row `r` and
the raw row) on every `events` row whose id equals `r.id`. -/
def updateRowFn (r : EventRow) (raw : RawRow) (e : EventRow) : EventRow :=
  if e.id == r.id then
    { e with
      sources := mergeSources r.sources raw.source,
      description := mergeDesc r.description raw.description }
  else e

def updateEvent (db : Db) (r : EventRow) (raw : RawRow) : Db :=
  { db with evs := db.evs.map (updateRowFn r raw) }

/-- The INSERT of dedupe_agent.dedupe_raw_events lines 141-147 at the value
level: the bound values are (title, dt_str, location, description, source),
bound to the columns (title, datetime, location, description, sources).
The statement's column list also names a sixth column `source` (bound to
the literal `''`) which the `events` schema does not have; that mismatch is
modelled separately by `dedupeStepSql`. -/
def insertEventVals (db : Db) (raw : RawRow) : Db :=
  { db with
    evs := db.evs ++ [{
      id := db.nextId,
      title := raw.title,
      datetime := raw.datetime,
      location := raw.location,
      description := raw.description,
      sources := raw.source }],
    nextId := db.nextId + 1 }

/-- One iteration of the loop of dedupe_agent.dedupe_raw_events lines
106-150 at the value level: skip rows whose datetime does not parse,
otherwise update the first matching event or insert a new one, bumping the
(inserted, updated) counters. -/
def dedupeStep : Db × Nat × Nat → RawRow → Db × Nat × Nat
  | (db, ins, upd), raw =>
    match parse_iso_datetime raw.datetime with
    | none => (db, ins, upd)
    | some dt =>
      match find_matching_event db.evs raw.title dt (pyOrEmpty raw.location) with
      | some r => (updateEvent db r raw, ins, upd + 1)
      | none => (insertEventVals db raw, ins + 1, upd)

/-- dedupe_agent.dedupe_raw_events at the value level: fold the loop body
over the fetched `raw_events` rows, starting from zero counters. -/
def dedupe_raw_events (db : Db) : Db × Nat × Nat :=
  db.raw.foldl dedupeStep (db, 0, 0)

/-- The state after the first `n` raw rows have been folded in. -/
def dedupeRunUpTo (db : Db) (n : Nat) : Db × Nat × Nat :=
  (db.raw.take n).foldl dedupeStep (db, 0, 0)

/-- The match predicate between two stored canonical records: equal title,
equal location, stored datetimes both parse and differ by at most 5
minutes (the predicate of find_matching_event read as a relation between
rows). -/
def rowsClose (r1 r2 : EventRow) : Bool :=
  r1.title == r2.title && r1.location == r2.location &&
    (match parse_iso_datetime r1.datetime, parse_iso_datetime r2.datetime with
     | some a, some b => decide (((a : Int) - (b : Int)).natAbs ≤ 5 * 60)
     | _, _ => false)

/-- No two distinct stored records satisfy the match predicate against
each other. -/
def noMutualMatch : List EventRow → Bool
  | [] => true
  | r :: rs => rs.all (fun x => !rowsClose r x) && noMutualMatch rs

/-- Every stored record's datetime string parses. -/
def allParse (evs : List EventRow) : Bool :=
  evs.all (fun r => (parse_iso_datetime r.datetime).isSome)

/-- The first stored record (dummy row for the empty table). -/
def headEvent (l : List EventRow) : EventRow :=
  l.headD ⟨0, "", "", "", "", ""⟩

/-- Two lists have the same elements (the same set, ignoring order). -/
def sameSet (l1 l2 : List String) : Bool :=
  l1.all (fun x => l2.contains x) && l2.all (fun x => l1.contains x)

/-! ## Column-level model of the SQL statements

SQLite raises `sqlite3.OperationalError` when a statement names a column
the addressed table lacks.  The schemas below are transcribed from
dedupe_agent.init_events_table and db_init.init_db, and the column lists
from the statements inside find_matching_event and dedupe_raw_events. -/

/-- Columns of `events` as created by dedupe_agent.init_events_table. -/
def initEventsTableColumns : List String :=
  ["id", "title", "datetime", "location", "description", "sources"]

/-- Columns of `events` as created by db_init.init_db. -/
def dbInitEventsColumns : List String :=
  ["id", "title", "datetime", "location", "description", "source",
   "category", "deduped"]

/-- Column list of the INSERT in dedupe_agent.dedupe_raw_events line 143. -/
def dedupeInsertColumns : List String :=
  ["title", "datetime", "location", "description", "sources", "source"]

/-- Columns read by the SELECT in dedupe_agent.find_matching_event lines
59-66 (selected and filtered columns). -/
def findSelectColumns : List String :=
  ["id", "datetime", "sources", "description", "title", "location"]

/-- Columns referenced by the UPDATE in dedupe_agent.dedupe_raw_events
lines 130-137. -/
def dedupeUpdateColumns : List String :=
  ["sources", "description", "id"]

/-- A statement's column references are valid iff each named column exists
in the schema. -/
def columnsOk (stmt schema : List String) : Bool :=
  stmt.all (fun c => schema.contains c)

/-- One iteration of the dedupe loop with the statements' column lists
checked against the schema of `events`; an invalid reference raises
(`Except.error`), carrying the state at the failure, which aborts the
run (the source has no handler around the loop). -/
def dedupeStepSql (schema : List String) :
    Db × Nat × Nat → RawRow → Except (String × Db × Nat × Nat) (Db × Nat × Nat)
  | (db, ins, upd), raw =>
  match parse_iso_datetime raw.datetime with
  | none => .ok (db, ins, upd)
  | some dt =>
    if !columnsOk findSelectColumns schema then
      .error ("no such column: sources", db, ins, upd)
    else
      match find_matching_event db.evs raw.title dt (pyOrEmpty raw.location) with
      | some r =>
        if columnsOk dedupeUpdateColumns schema then
          .ok (updateEvent db r raw, ins, upd + 1)
        else
          .error ("no such column in UPDATE", db, ins, upd)
      | none =>
        if columnsOk dedupeInsertColumns schema then
          .ok (insertEventVals db raw, ins + 1, upd)
        else
          .error ("table events has no column named source", db, ins, upd)

/-- dedupe_agent.dedupe_raw_events with column checking: the loop stops at
the first failing statement. -/
def dedupeRunSql (schema : List String) (db : Db) :
    Except (String × Db × Nat × Nat) (Db × Nat × Nat) :=
  db.raw.foldlM (dedupeStepSql schema) (db, 0, 0)

/-- The database carried by either outcome of a column-checked run. -/
def sqlResultDb : Except (String × Db × Nat × Nat) (Db × Nat × Nat) → Db
  | .ok (db, _, _) => db
  | .error (_, db, _, _) => db

/-! ### Concrete rows used to evaluate the dedupe pass -/

/-- A well-formed raw candidate (valid ISO datetime, no existing match). -/
def rawHack : RawRow :=
  ⟨1, "Hack Night", "2025-06-03T18:00:00", "Lab 2", "a night of hacking",
   "dsync_bmsce"⟩

/-- A raw candidate whose datetime string does not parse. -/
def rawMalformed : RawRow :=
  ⟨2, "Hack Night", "not-a-datetime", "Lab 2", "bad row", "csbs_bmsce"⟩

/-- Candidate A of the window-boundary scenarios. -/
def rawA : RawRow :=
  ⟨1, "Tech Talk", "2025-06-03T18:00:00", "Lab 2", "descA", "s1"⟩

/-- Candidate with the same title and location as `rawA`, exactly 5:00
later. -/
def rawB5 : RawRow :=
  ⟨2, "Tech Talk", "2025-06-03T18:05:00", "Lab 2", "descB", "s2"⟩

/-- Candidate with the same title and location as `rawA`, 5:01 later. -/
def rawB51 : RawRow :=
  ⟨3, "Tech Talk", "2025-06-03T18:05:01", "Lab 2", "descB", "s2"⟩

/-- The canonical record that folding in `rawA` would create. -/
def rowA : EventRow :=
  ⟨1, "Tech Talk", "2025-06-03T18:00:00", "Lab 2", "descA", "s1"⟩

/-- The caption of the spec's "Date fallback" test. -/
def capC9 : String :=
  "🎉 Hack Night\n📅 Date: 3rd June\n🕒 Time: 6 PM\n📍 Venue: Lab 2"

/-! ## Caption parser (ingest_agent.py)

parse_caption and its helpers are embedded line by line.  Each concrete
regular expression of the source becomes a dedicated matching function;
`re.match` anchors at the start of the line, `re.search` scans for the
leftmost matching start position, greedy/lazy subpatterns are realised by
trying the alternatives in the engine's backtracking order.  Because
`datetime.now().year` is an environment input, the embedding takes the
formatted current year (`f"{datetime.now().year}"`) as a string
parameter `nowYear`. -/

/-- A `datetime.date`. -/
structure PyDate where
  year : Nat
  month : Nat
  day : Nat
  deriving DecidableEq

/-- A `datetime.datetime` (seconds are always zero in this pipeline). -/
structure PyDateTime where
  year : Nat
  month : Nat
  day : Nat
  hour : Nat
  minute : Nat
  deriving DecidableEq

/-- `str.splitlines()` (ASCII line boundaries). -/
def splitLinesGo : List Char → List Char → List (List Char)
  | [], acc => [acc.reverse]
  | '\x0d' :: '\n' :: rest, acc =>
    acc.reverse :: (if rest.isEmpty then [] else splitLinesGo rest [])
  | '\n' :: rest, acc =>
    acc.reverse :: (if rest.isEmpty then [] else splitLinesGo rest [])
  | '\x0d' :: rest, acc =>
    acc.reverse :: (if rest.isEmpty then [] else splitLinesGo rest [])
  | c :: rest, acc => splitLinesGo rest (c :: acc)

/-- `str.splitlines()`: empty string gives no lines, a terminal newline
does not produce a trailing empty line. -/
def pySplitLines (s : String) : List (List Char) :=
  if s.data.isEmpty then [] else splitLinesGo s.data []

/-- parse_caption lines 46-47: strip every line, keep the non-empty
ones. -/
def pcLines (caption : String) : List String :=
  (((pySplitLines caption).map (fun cs => String.mk (pyStripCA cs))).filter
    (fun l => l != ""))

/-- The decorative symbols stripped from line starts
(emoji_strip_pattern). -/
def emojiSet : List Char :=
  ['🎉', '✨', '🚀', '💫', '🌟', '🔥', '⚡', '📅', '🕒', '📍', '💰', '🏆', '👥']

/-- `emoji_strip_pattern.sub("", ln)`: the pattern is anchored at the
start, so exactly the leading run of decorative symbols is removed. -/
def emojiStripCA (cs : List Char) : List Char :=
  cs.dropWhile (fun c => emojiSet.contains c)

/-- `emoji_strip_pattern.sub("", ln).strip()`. -/
def cleanLn (ln : String) : String :=
  String.mk (pyStripCA (emojiStripCA ln.data))

/-- Case-insensitive literal prefix: consume `lit` (given lowercase) from
the head of `cs`, returning the rest. -/
def dropCI (lit : List Char) (cs : List Char) : Option (List Char) :=
  match lit, cs with
  | [], rest => some rest
  | _ :: _, [] => none
  | l :: ls, c :: cs2 => if c.toLower = l then dropCI ls cs2 else none

/-- greeting_pattern: `^(Greetings|Warm|Hello|Hi|Get ready|Are you
ready|Think you|Join us)` with IGNORECASE (prefix match, no word
boundary). -/
def greetingMatch (ln : String) : Bool :=
  let l := lowerCA ln.data
  ["greetings", "warm", "hello", "hi", "get ready", "are you ready",
   "think you", "join us"].any (fun p => hasPrefixCA p.data l)

/-- filler_pattern: `^(Event\s*Details:?|Details:?|What are you waiting
for|Here's what|Save the date)` with IGNORECASE.  The optional trailing
colon never affects whether the pattern matches. -/
def fillerMatch (ln : String) : Bool :=
  let l := lowerCA ln.data
  hasPrefixCA "details".data l ||
  hasPrefixCA "what are you waiting for".data l ||
  hasPrefixCA "here\x27s what".data l ||
  hasPrefixCA "save the date".data l ||
  (hasPrefixCA "event".data l &&
    hasPrefixCA "details".data ((l.drop 5).dropWhile pyIsSpace))

/-- parse_caption lines 55-62: title candidates (non-boilerplate lines
longer than 5 characters, cleaned; falling back to all cleaned non-empty
lines). -/
def pcCandidates (lines : List String) : List String :=
  let cands := ((lines.filter (fun ln => !greetingMatch ln &&
      !fillerMatch ln && decide (5 < ln.data.length))).map cleanLn).filter
    (fun c => c != "")
  if cands.isEmpty then
    (lines.map cleanLn).filter (fun c => c != "")
  else cands

/-- date pattern 1: `^(?:📅\s*)?Date\s*[:：]\s*(.+)$` with IGNORECASE
(pattern 3 is the same without the emoji option).  Returns the captured
group. Assumes its input is a stripped line (no trailing whitespace), as
produced by `pcLines`. -/
def matchDateLabel (cs : List Char) : Option (List Char) :=
  let cs1 := match cs with
    | '📅' :: rest => rest.dropWhile pyIsSpace
    | _ => cs
  match dropCI "date".data cs1 with
  | none => none
  | some cs2 =>
    match (cs2.dropWhile pyIsSpace) with
    | c :: cs4 =>
      if c = ':' ∨ c = '：' then
        let cap := cs4.dropWhile pyIsSpace
        if cap.isEmpty then none else some cap
      else none
    | [] => none

/-- date pattern 2: `^📅\s*(.+)$`. -/
def matchDateEmoji (cs : List Char) : Option (List Char) :=
  match cs with
  | '📅' :: rest =>
    let cap := rest.dropWhile pyIsSpace
    if cap.isEmpty then none else some cap
  | _ => none

/-- parse_caption lines 86-97, per line: the first matching date pattern's
capture (pattern 1 subsumes pattern 3). -/
def dateCapture (ln : String) : Option String :=
  match matchDateLabel ln.data with
  | some cap => some (String.mk cap)
  | none =>
    match matchDateEmoji ln.data with
    | some cap => some (String.mk cap)
    | none => none

/-! ### parse_date_string (ingest_agent.py lines 204-223) -/

def natOfDigits (cs : List Char) : Nat :=
  cs.foldl (fun a c => a * 10 + digitVal c) 0

/-- Python regex word characters (`\w`), ASCII model: alphanumerics and
underscore. -/
def isWordChar (c : Char) : Bool := c.isAlphanum || c = '_'

/-- `\b\d{4}\b` at position `i` (word characters as in `\w`). -/
def fourDigitAt (cs : List Char) (i : Nat) : Bool :=
  decide (((cs.drop i).take 4).length = 4) &&
  ((cs.drop i).take 4).all Char.isDigit &&
  (i == 0 || !isWordChar (cs.getD (i - 1) ' ')) &&
  (i + 4 == cs.length || !isWordChar (cs.getD (i + 4) ' '))

/-- `re.search(r"\b\d{4}\b", s)` as a boolean. -/
def hasFourDigitRun (s : String) : Bool :=
  (List.range (s.data.length + 1)).any (fourDigitAt s.data)

/-- `re.sub(r"(\d+)(st|nd|rd|th)", r"\1", s)`: drop an ordinal suffix
(lowercase, as in the source pattern, which is case-sensitive) directly
following a digit run; one unit of fuel per scanned character. -/
def ordinalGo : Nat → List Char → List Char
  | 0, cs => cs
  | _ + 1, [] => []
  | f + 1, c :: rest =>
    if c.isDigit then
      let run := (c :: rest).takeWhile Char.isDigit
      let after := (c :: rest).drop run.length
      match after with
      | 's' :: 't' :: tl => run ++ ordinalGo f tl
      | 'n' :: 'd' :: tl => run ++ ordinalGo f tl
      | 'r' :: 'd' :: tl => run ++ ordinalGo f tl
      | 't' :: 'h' :: tl => run ++ ordinalGo f tl
      | _ => run ++ ordinalGo f after
    else c :: ordinalGo f rest

def ordinalStrip (s : String) : String :=
  String.mk (ordinalGo s.data.length s.data)

/-- Split into whitespace-separated tokens (the `\s+` that strptime
substitutes for whitespace in a format string). -/
def wsTokensGo : List Char → List Char → List (List Char)
  | [], acc => if acc.isEmpty then [] else [acc.reverse]
  | c :: rest, acc =>
    if pyIsSpace c then
      (if acc.isEmpty then wsTokensGo rest []
       else acc.reverse :: wsTokensGo rest [])
    else wsTokensGo rest (c :: acc)

def wsTokens (s : String) : List (List Char) :=
  wsTokensGo s.data []

def monthFullNames : List (String × Nat) :=
  [("january", 1), ("february", 2), ("march", 3), ("april", 4), ("may", 5),
   ("june", 6), ("july", 7), ("august", 8), ("september", 9),
   ("october", 10), ("november", 11), ("december", 12)]

def monthAbbrNames : List (String × Nat) :=
  [("jan", 1), ("feb", 2), ("mar", 3), ("apr", 4), ("may", 5), ("jun", 6),
   ("jul", 7), ("aug", 8), ("sep", 9), ("oct", 10), ("nov", 11),
   ("dec", 12)]

/-- `%B` / `%b`: a month name from the table, case-insensitively. -/
def parseMonthTok (tbl : List (String × Nat)) (tok : List Char) :
    Option Nat :=
  (tbl.find? (fun p => decide (lowerCA tok = p.1.data))).map (fun p => p.2)

/-- `%d`: one or two digits, value 1-31. -/
def parseDayTok (tok : List Char) : Option Nat :=
  if tok.all Char.isDigit ∧ 1 ≤ tok.length ∧ tok.length ≤ 2 then
    let v := natOfDigits tok
    if 1 ≤ v ∧ v ≤ 31 then some v else none
  else none

/-- `%m`: one or two digits, value 1-12. -/
def parseMonthNumTok (tok : List Char) : Option Nat :=
  if tok.all Char.isDigit ∧ 1 ≤ tok.length ∧ tok.length ≤ 2 then
    let v := natOfDigits tok
    if 1 ≤ v ∧ v ≤ 12 then some v else none
  else none

/-- `%Y`: exactly four digits. -/
def parseYearTok (tok : List Char) : Option Nat :=
  if tok.all Char.isDigit ∧ tok.length = 4 then some (natOfDigits tok)
  else none

/-- `datetime.strptime(...).date()` validates the calendar date. -/
def mkPyDate (y m d : Nat) : Option PyDate :=
  if 1 ≤ y ∧ y ≤ 9999 ∧ 1 ≤ m ∧ m ≤ 12 ∧ 1 ≤ d ∧ d ≤ daysInMonth y m then
    some (PyDate.mk y m d)
  else none

/-- A token consisting of `base` immediately followed by a comma (the
literal `,` attached to `%B`/`%d` in formats like `"%d %B, %Y"`). -/
def splitTrailingComma (tok : List Char) : Option (List Char) :=
  match tok.reverse with
  | ',' :: restRev => some restRev.reverse
  | _ => none

/-- Formats `"%d %B %Y"` and `"%d %b %Y"`. -/
def fmtDayMonthYear (tbl : List (String × Nat)) (toks : List (List Char)) :
    Option PyDate :=
  match toks with
  | [t1, t2, t3] => do
    let d ← parseDayTok t1
    let m ← parseMonthTok tbl t2
    let y ← parseYearTok t3
    mkPyDate y m d
  | _ => none

/-- Formats `"%d %B, %Y"` and `"%d %b, %Y"`. -/
def fmtDayMonthCommaYear (tbl : List (String × Nat))
    (toks : List (List Char)) : Option PyDate :=
  match toks with
  | [t1, t2, t3] => do
    let base ← splitTrailingComma t2
    let d ← parseDayTok t1
    let m ← parseMonthTok tbl base
    let y ← parseYearTok t3
    mkPyDate y m d
  | _ => none

/-- Format `"%B %d %Y"`. -/
def fmtMonthDayYear (toks : List (List Char)) : Option PyDate :=
  match toks with
  | [t1, t2, t3] => do
    let m ← parseMonthTok monthFullNames t1
    let d ← parseDayTok t2
    let y ← parseYearTok t3
    mkPyDate y m d
  | _ => none

/-- Format `"%B %d, %Y"`. -/
def fmtMonthDayCommaYear (toks : List (List Char)) : Option PyDate :=
  match toks with
  | [t1, t2, t3] => do
    let base ← splitTrailingComma t2
    let m ← parseMonthTok monthFullNames t1
    let d ← parseDayTok base
    let y ← parseYearTok t3
    mkPyDate y m d
  | _ => none

/-- Formats `"%d/%m/%Y"` and `"%d-%m-%Y"`. -/
def fmtDayMonthYearSep (sep : Char) (toks : List (List Char)) :
    Option PyDate :=
  match toks with
  | [t] =>
    match splitCA [sep] t with
    | [td, tm, ty] => do
      let d ← parseDayTok td
      let m ← parseMonthNumTok tm
      let y ← parseYearTok ty
      mkPyDate y m d
    | _ => none
  | _ => none

/-- Format `"%Y-%m-%d"`. -/
def fmtYearMonthDay (toks : List (List Char)) : Option PyDate :=
  match toks with
  | [t] =>
    match splitCA ['-'] t with
    | [ty, tm, td] => do
      let y ← parseYearTok ty
      let m ← parseMonthNumTok tm
      let d ← parseDayTok td
      mkPyDate y m d
    | _ => none
  | _ => none

/-- ingest_agent.parse_date_string: strip, append the current year when no
four-digit run occurs, drop ordinal suffixes, then try the fixed format
list in order. -/
def parse_date_string (nowYear : String) (dateStr : String) :
    Option PyDate :=
  if dateStr = "" then none
  else
    let s := pyStrip dateStr
    let s := if hasFourDigitRun s then s
      else String.mk (s.data ++ (' ' :: nowYear.data))
    let s := ordinalStrip s
    let toks := wsTokens s
    match fmtDayMonthYear monthFullNames toks with
    | some d => some d
    | none =>
    match fmtDayMonthCommaYear monthFullNames toks with
    | some d => some d
    | none =>
    match fmtDayMonthYear monthAbbrNames toks with
    | some d => some d
    | none =>
    match fmtDayMonthCommaYear monthAbbrNames toks with
    | some d => some d
    | none =>
    match fmtMonthDayYear toks with
    | some d => some d
    | none =>
    match fmtMonthDayCommaYear toks with
    | some d => some d
    | none =>
    match fmtDayMonthYearSep '/' toks with
    | some d => some d
    | none =>
    match fmtDayMonthYearSep '-' toks with
    | some d => some d
    | none => fmtYearMonthDay toks

/-- parse_caption lines 86-97: the first line whose date capture parses
fixes `(date_line_idx, date_obj)`; a line whose capture fails to parse is
passed over. -/
def pcFindDate (nowYear : String) : List String → Nat →
    Option (Nat × PyDate)
  | [], _ => none
  | ln :: rest, i =>
    match dateCapture ln with
    | some raw =>
      match parse_date_string nowYear (pyStrip raw) with
      | some dt => some (i, dt)
      | none => pcFindDate nowYear rest (i + 1)
    | none => pcFindDate nowYear rest (i + 1)

/-! ### Time, venue and announcement matchers (parse_caption steps 3, 6) -/

def timeEmojiSet : List Char := ['🕒', '🕚', '⏰', '🕝', '🕓', '🕑']

/-- `\s*[:：]\s*(.+)$` after a matched label, on a stripped line. -/
def colonCapture (cs : List Char) : Option (List Char) :=
  match cs.dropWhile pyIsSpace with
  | c :: cs2 =>
    if c = ':' ∨ c = '：' then
      let cap := cs2.dropWhile pyIsSpace
      if cap.isEmpty then none else some cap
    else none
  | [] => none

/-- time pattern 1: `^(?:🕒|🕚|⏰|🕝|🕓|🕑)\s*Time\s*[:：]\s*(.+)$`
(IGNORECASE). -/
def matchTimeLabelEmoji (cs : List Char) : Option (List Char) :=
  match cs with
  | c :: rest =>
    if timeEmojiSet.contains c then
      match dropCI "time".data (rest.dropWhile pyIsSpace) with
      | some cs2 => colonCapture cs2
      | none => none
    else none
  | [] => none

/-- time pattern 2: `^Time\s*[:：]\s*(.+)$` (IGNORECASE). -/
def matchTimeLabel (cs : List Char) : Option (List Char) :=
  match dropCI "time".data cs with
  | some cs2 => colonCapture cs2
  | none => none

/-- time pattern 3: `^(?:🕒|🕚|⏰|🕝|🕓|🕑)\s*(.+)$`. -/
def matchTimeEmoji (cs : List Char) : Option (List Char) :=
  match cs with
  | c :: rest =>
    if timeEmojiSet.contains c then
      let cap := rest.dropWhile pyIsSpace
      if cap.isEmpty then none else some cap
    else none
  | [] => none

/-- parse_caption lines 157-163: the first matching time pattern's
capture. -/
def timeLineCapture (ln : String) : Option (List Char) :=
  match matchTimeLabelEmoji ln.data with
  | some cap => some cap
  | none =>
    match matchTimeLabel ln.data with
    | some cap => some cap
    | none => matchTimeEmoji ln.data

def countWs (cs : List Char) : Nat := (cs.takeWhile pyIsSpace).length

/-- Does `re.split(r"\s+to\s+|\s*-\s*", ..., re.IGNORECASE)`'s pattern
match at position `i`? -/
def timeRangeSepAt (cs : List Char) (i : Nat) : Bool :=
  let rest := cs.drop i
  (decide (1 ≤ countWs rest) &&
    (match dropCI "to".data (rest.dropWhile pyIsSpace) with
     | some r2 => decide (1 ≤ countWs r2)
     | none => false)) ||
  (match rest.dropWhile pyIsSpace with
   | '-' :: _ => true
   | _ => false)

/-- parse_caption lines 160-162: strip the capture, cut it at the first
range separator, and strip the start time. -/
def startTimeOf (cap : List Char) : String :=
  let t := pyStripCA cap
  let n := ((List.range (t.length + 1)).find?
    (fun i => timeRangeSepAt t i)).getD t.length
  String.mk (pyStripCA (t.take n))

/-- venue pattern 1: `^(?:📍\s*)?Venue\s*[:：]\s*(.+)$` (IGNORECASE). -/
def matchVenueLabel (cs : List Char) : Option (List Char) :=
  let cs1 := match cs with
    | '📍' :: rest => rest.dropWhile pyIsSpace
    | _ => cs
  match dropCI "venue".data cs1 with
  | some cs2 => colonCapture cs2
  | none => none

/-- venue pattern 2: `^📍\s*(.+)$`. -/
def matchVenueEmoji (cs : List Char) : Option (List Char) :=
  match cs with
  | '📍' :: rest =>
    let cap := rest.dropWhile pyIsSpace
    if cap.isEmpty then none else some cap
  | _ => none

/-- parse_caption lines 168-171: the first matching venue pattern's
capture. -/
def venueLineCapture (ln : String) : Option (List Char) :=
  match matchVenueLabel ln.data with
  | some cap => some cap
  | none => matchVenueEmoji ln.data

/-- The tail `(?:\s+at|\s*!|\s*‼|\s*$)` (with the `\s+at` alternative only
for the `presents` patterns): does it match at the head of `cs`? -/
def annTailMatches (withAt : Bool) (cs : List Char) : Bool :=
  (withAt && decide (1 ≤ countWs cs) &&
    (match dropCI "at".data (cs.dropWhile pyIsSpace) with
     | some _ => true
     | none => false)) ||
  (match cs.dropWhile pyIsSpace with
   | '!' :: _ => true
   | '‼' :: _ => true
   | [] => true
   | _ => false)

/-- The tail `\?` of `Think you can\s+(.+?)\?`. -/
def annQTail (cs : List Char) : Bool :=
  match cs with
  | '?' :: _ => true
  | _ => false

/-- `re.search` of `<lit>\s+(.+?)<tail>` matched at start position `p`:
greedy `\s+` tried longest-first, lazy capture tried shortest-first;
returns the captured group.  `tailKind`: 0 = tail with the `\s+at`
alternative, 1 = without it, 2 = a literal question mark. -/
def annMatchAt (lit : List Char) (tailKind : Nat) (cs : List Char)
    (p : Nat) : Option (List Char) :=
  match dropCI lit (cs.drop p) with
  | none => none
  | some afterLit =>
    let maxWs := countWs afterLit
    (List.range maxWs).findSome? (fun j =>
      let rest := afterLit.drop (maxWs - j)
      (List.range rest.length).findSome? (fun c0 =>
        let tl := rest.drop (c0 + 1)
        let ok := match tailKind with
          | 0 => annTailMatches true tl
          | 1 => annTailMatches false tl
          | _ => annQTail tl
        if ok then some (rest.take (c0 + 1)) else none))

/-- `re.search`: leftmost start position wins. -/
def annSearch (lit : List Char) (tailKind : Nat) (ln : String) :
    Option (List Char) :=
  (List.range (ln.data.length + 1)).findSome?
    (fun p => annMatchAt lit tailKind ln.data p)

/-- The suffix normalization
`re.sub(r"\s+(challenge|competition|workshop|event)$", r" \1", title,
re.IGNORECASE)`. -/
def titleSuffixAt (cs : List Char) (i : Nat) : Option (List Char) :=
  let rest := cs.drop i
  let w := countWs rest
  if w = 0 then none
  else
    let after := rest.drop w
    if ["challenge", "competition", "workshop", "event"].any
        (fun word => decide (lowerCA after = word.data))
    then some after else none

def titleSuffixNormalize (t : String) : String :=
  match (List.range (t.data.length + 1)).findSome? (fun i =>
      (titleSuffixAt t.data i).map (fun after => (i, after))) with
  | some (i, after) => String.mk (t.data.take i ++ (' ' :: after))
  | none => t

/-- parse_caption lines 112-133, per line: the first event pattern that
matches anywhere in the line yields the stripped, suffix-normalized
title. -/
def announceOn (ln : String) : Option String :=
  let pats : List (List Char × Nat) :=
    [("presents".data, 0), ("invite you to".data, 1),
     ("think you can".data, 2), ("get ready for".data, 1),
     ("join us for".data, 1), ("presents:".data, 0)]
  (pats.findSome? (fun p => annSearch p.1 p.2 ln)).map
    (fun cap => titleSuffixNormalize (String.mk (pyStripCA cap)))

/-- parse_caption step 3: the first line carrying an announcement
phrasing. -/
def pcAnnounceTitle : List String → Option String
  | [] => none
  | ln :: rest =>
    match announceOn ln with
    | some t => some t
    | none => pcAnnounceTitle rest

/-! ### Free-text date and time extraction (ingest_agent.py 226-255) -/

/-- `\b` at position `j` following a word character. -/
def fdBoundary (cs : List Char) (j : Nat) : Bool :=
  j == cs.length || !isWordChar (cs.getD j ' ')

/-- The optional `(?:,?\s*\d{4})` group starting right after the month
name; returns the end position when it matches with a boundary after. -/
def fdYearAt (cs : List Char) (mend : Nat) : Option Nat :=
  let tryAt := fun (pc : Nat) =>
    let ypos := pc + countWs (cs.drop pc)
    let ys := (cs.drop ypos).take 4
    if decide (ys.length = 4) && ys.all Char.isDigit &&
        fdBoundary cs (ypos + 4)
    then some (ypos + 4) else none
  if cs.getD mend ' ' = ',' then
    match tryAt (mend + 1) with
    | some j => some j
    | none => tryAt mend
  else tryAt mend

/-- A full month name (case-insensitive) at position `mpos`; returns the
end position. -/
def fdMonthAt (cs : List Char) (mpos : Nat) : Option Nat :=
  monthFullNames.findSome? (fun p =>
    match dropCI p.1.data (cs.drop mpos) with
    | some _ => some (mpos + p.1.data.length)
    | none => none)

/-- The free-text date pattern from a digit run of length `dlen` at
position `i`: optional ordinal suffix, `\s+`, month name, optional year,
trailing `\b`; returns the end of the match. -/
def fdFromDigits (cs : List Char) (i dlen : Nat) : Option Nat :=
  let ds := (cs.drop i).take dlen
  if decide (ds.length = dlen) && ds.all Char.isDigit then
    let afterD := i + dlen
    let ordHere : Bool := match (cs.drop afterD).take 2 with
      | [a, b] => ["st", "nd", "rd", "th"].any
          (fun o => decide (lowerCA [a, b] = o.data))
      | _ => false
    let tryFrom := fun (pos : Nat) =>
      let w := countWs (cs.drop pos)
      if w = 0 then none
      else match fdMonthAt cs (pos + w) with
        | some mend =>
          match fdYearAt cs mend with
          | some j => some j
          | none => if fdBoundary cs mend then some mend else none
        | none => none
    if ordHere then
      match tryFrom (afterD + 2) with
      | some j => some j
      | none => tryFrom afterD
    else tryFrom afterD
  else none

/-- One start position of
`\b(\d{1,2}(?:st|nd|rd|th)?\s+(January|...|December)(?:,?\s*\d{4})?)\b`:
two digits tried before one. -/
def matchFreeDateAt (cs : List Char) (i : Nat) : Option Nat :=
  if i == 0 || !isWordChar (cs.getD (i - 1) ' ') then
    match fdFromDigits cs i 2 with
    | some j => some j
    | none => fdFromDigits cs i 1
  else none

/-- ingest_agent.extract_date_from_text: leftmost free-text date, handed
to parse_date_string. -/
def extract_date_from_text (nowYear : String) (text : String) :
    Option PyDate :=
  match (List.range (text.data.length + 1)).findSome?
      (fun i => (matchFreeDateAt text.data i).map (fun j => (i, j))) with
  | some (i, j) =>
    parse_date_string nowYear (String.mk ((text.data.drop i).take (j - i)))
  | none => none

/-- Hour alternatives `[01]?\d|2[0-3]` at position `i`, in backtracking
order (two digits with leading 0/1, one digit, two digits starting 2). -/
def hour24LensAt (cs : List Char) (i : Nat) : List Nat :=
  let c1 := cs.getD i ' '
  let c2 := cs.getD (i + 1) ' '
  (if (c1 = '0' ∨ c1 = '1') ∧ c2.isDigit ∧ i + 1 < cs.length then [2]
   else []) ++
  (if c1.isDigit then [1] else []) ++
  (if c1 = '2' ∧ (c2 = '0' ∨ c2 = '1' ∨ c2 = '2' ∨ c2 = '3') ∧
      i + 1 < cs.length then [2] else [])

/-- `[0-5]\d` at position `i`. -/
def minuteAt (cs : List Char) (i : Nat) : Bool :=
  decide ('0' ≤ cs.getD i ' ' ∧ cs.getD i ' ' ≤ '5') &&
  (cs.getD (i + 1) ' ').isDigit && decide (i + 1 < cs.length)

/-- `\s*(AM|PM)` (IGNORECASE) from position `i`; returns the end. -/
def ampmAt (cs : List Char) (i : Nat) : Option Nat :=
  let p := i + countWs (cs.drop i)
  match (cs.drop p).take 2 with
  | [a, b] =>
    if lowerCA [a, b] = "am".data ∨ lowerCA [a, b] = "pm".data
    then some (p + 2) else none
  | _ => none

/-- Time pattern `\b([01]?\d|2[0-3])[:.]([0-5]\d)\s*(AM|PM)\b` at `i`. -/
def tp1MatchAt (cs : List Char) (i : Nat) : Option Nat :=
  if i == 0 || !isWordChar (cs.getD (i - 1) ' ') then
    (hour24LensAt cs i).findSome? (fun hl =>
      let ci := i + hl
      if (cs.getD ci ' ' = ':' ∨ cs.getD ci ' ' = '.') ∧ ci < cs.length then
        if minuteAt cs (ci + 1) then
          match ampmAt cs (ci + 3) with
          | some e => if fdBoundary cs e then some e else none
          | none => none
        else none
      else none)
  else none

/-- Time pattern `\b([01]?\d|2[0-3])[:.]([0-5]\d)\b` at `i`. -/
def tp2MatchAt (cs : List Char) (i : Nat) : Option Nat :=
  if i == 0 || !isWordChar (cs.getD (i - 1) ' ') then
    (hour24LensAt cs i).findSome? (fun hl =>
      let ci := i + hl
      if (cs.getD ci ' ' = ':' ∨ cs.getD ci ' ' = '.') ∧ ci < cs.length then
        if minuteAt cs (ci + 1) && fdBoundary cs (ci + 3)
        then some (ci + 3) else none
      else none)
  else none

/-- Time pattern `\b(1[0-2]|[1-9])\s*(AM|PM)\b` at `i`. -/
def tp3MatchAt (cs : List Char) (i : Nat) : Option Nat :=
  if i == 0 || !isWordChar (cs.getD (i - 1) ' ') then
    let c1 := cs.getD i ' '
    let c2 := cs.getD (i + 1) ' '
    let lens := (if c1 = '1' ∧ (c2 = '0' ∨ c2 = '1' ∨ c2 = '2') ∧
        i + 1 < cs.length then [2] else []) ++
      (if '1' ≤ c1 ∧ c1 ≤ '9' ∧ i < cs.length then [1] else [])
    lens.findSome? (fun hl =>
      match ampmAt cs (i + hl) with
      | some e => if fdBoundary cs e then some e else none
      | none => none)
  else none

/-- Leftmost match of a positional pattern. -/
def searchPat (f : List Char → Nat → Option Nat) (cs : List Char) :
    Option (Nat × Nat) :=
  (List.range (cs.length + 1)).findSome?
    (fun i => (f cs i).map (fun j => (i, j)))

/-- ingest_agent.extract_time_from_text: the three patterns in order,
returning the full matched text (`m.group(0)`), or `""`. -/
def extract_time_from_text (text : String) : String :=
  let cs := text.data
  match searchPat tp1MatchAt cs with
  | some (i, j) => String.mk ((cs.drop i).take (j - i))
  | none =>
  match searchPat tp2MatchAt cs with
  | some (i, j) => String.mk ((cs.drop i).take (j - i))
  | none =>
  match searchPat tp3MatchAt cs with
  | some (i, j) => String.mk ((cs.drop i).take (j - i))
  | none => ""

/-! ### combine_date_time (ingest_agent.py 258-270) -/

/-- `%I`: one or two digits, 1-12. -/
def parseHour12Tok (tok : List Char) : Option Nat :=
  if tok.all Char.isDigit ∧ 1 ≤ tok.length ∧ tok.length ≤ 2 then
    let v := natOfDigits tok
    if 1 ≤ v ∧ v ≤ 12 then some v else none
  else none

/-- `%H`: one or two digits, 0-23. -/
def parseHour24Tok (tok : List Char) : Option Nat :=
  if tok.all Char.isDigit ∧ 1 ≤ tok.length ∧ tok.length ≤ 2 then
    let v := natOfDigits tok
    if v ≤ 23 then some v else none
  else none

/-- `%M`: exactly two digits, 00-59. -/
def parseMinuteTok (tok : List Char) : Option Nat :=
  if tok.all Char.isDigit ∧ tok.length = 2 then
    let v := natOfDigits tok
    if v ≤ 59 then some v else none
  else none

/-- `%p`: AM or PM, case-insensitively; `true` means PM. -/
def parseAmPmTok (tok : List Char) : Option Bool :=
  if lowerCA tok = "am".data then some false
  else if lowerCA tok = "pm".data then some true
  else none

/-- strptime's 12-hour arithmetic: 12 AM is 0, 12 PM is 12, PM adds 12. -/
def applyAmPm (h : Nat) (pm : Bool) : Nat :=
  if pm then (if h = 12 then 12 else h + 12)
  else (if h = 12 then 0 else h)

/-- Formats `"%I:%M %p"` and `"%I.%M %p"`. -/
def fmtIMinP (sep : Char) (toks : List (List Char)) : Option (Nat × Nat) :=
  match toks with
  | [t1, t2] =>
    match splitCA [sep] t1 with
    | [th, tm] => do
      let h ← parseHour12Tok th
      let m ← parseMinuteTok tm
      let pm ← parseAmPmTok t2
      some (applyAmPm h pm, m)
    | _ => none
  | _ => none

/-- Formats `"%H:%M"` and `"%H.%M"`. -/
def fmtHM (sep : Char) (toks : List (List Char)) : Option (Nat × Nat) :=
  match toks with
  | [t1] =>
    match splitCA [sep] t1 with
    | [th, tm] => do
      let h ← parseHour24Tok th
      let m ← parseMinuteTok tm
      some (h, m)
    | _ => none
  | _ => none

/-- Format `"%I %p"`. -/
def fmtIP (toks : List (List Char)) : Option (Nat × Nat) :=
  match toks with
  | [t1, t2] => do
    let h ← parseHour12Tok t1
    let pm ← parseAmPmTok t2
    some (applyAmPm h pm, 0)
  | _ => none

/-- ingest_agent.combine_date_time: try the five time formats in order,
falling back to 10:00. -/
def combine_date_time (d : PyDate) (timeStr : String) : PyDateTime :=
  let toks := wsTokens (pyStrip timeStr)
  let hm := match fmtIMinP ':' toks with
    | some hm => some hm
    | none =>
    match fmtHM ':' toks with
    | some hm => some hm
    | none =>
    match fmtIP toks with
    | some hm => some hm
    | none =>
    match fmtIMinP '.' toks with
    | some hm => some hm
    | none => fmtHM '.' toks
  match hm with
  | some (h, m) => PyDateTime.mk d.year d.month d.day h m
  | none => PyDateTime.mk d.year d.month d.day 10 0

/-! ### parse_caption (ingest_agent.py 39-201) -/

/-- Python truthiness of an optional string (`if not title`). -/
def truthyOpt (o : Option String) : Option String :=
  match o with
  | some "" => none
  | x => x

/-- `title or "Event"`. -/
def pyOrElse (o : Option String) (dflt : String) : String :=
  match o with
  | none => dflt
  | some t => if t = "" then dflt else t

/-- parse_caption step 2 (rule a): the line immediately preceding the
date line, cleaned, when long enough and not boilerplate. -/
def pcTitleRuleA (dateIdx : Option Nat) (lines : List String) :
    Option String :=
  match dateIdx with
  | some i =>
    if 0 < i then
      let cand := lines.getD (i - 1) ""
      let clean := cleanLn cand
      if decide (3 < clean.data.length) && !greetingMatch cand &&
          !fillerMatch cand
      then some clean else none
    else none
  | none => none

/-- parse_caption step 5: first non-greeting line whose cleaned text is
longer than 3 characters. -/
def pcStep5Title : List String → Option String
  | [] => none
  | ln :: rest =>
    let clean := cleanLn ln
    if clean != "" && decide (3 < clean.data.length) && !greetingMatch ln
    then some clean else pcStep5Title rest

/-- parse_caption step 6, transcribed with its exact control flow: the
title-above-date line is skipped only when it equals the computed title
verbatim; once a time has been found (`if event_time_str: continue`)
every later line is skipped entirely, and once a location has been found
(`if location: continue`) later lines can only be examined for a time.
Returns (event_time_str, location, description_parts). -/
def pcScanGo (dateIdx : Option Nat) (title : Option String) :
    List String → Nat → String → String → List String →
    String × String × List String
  | [], _, timeStr, loc, parts => (timeStr, loc, parts)
  | ln :: rest, i, timeStr, loc, parts =>
    let skipTitle : Bool := match dateIdx, title with
      | some d, some t => i + 1 == d && t == ln
      | _, _ => false
    if skipTitle then
      pcScanGo dateIdx title rest (i + 1) timeStr loc parts
    else
      let timeStr2 := if timeStr = "" then
          (match timeLineCapture ln with
           | some cap => startTimeOf cap
           | none => "")
        else timeStr
      if timeStr2 ≠ "" then
        pcScanGo dateIdx title rest (i + 1) timeStr2 loc parts
      else
        let loc2 := if loc = "" then
            (match venueLineCapture ln with
             | some cap => String.mk (pyStripCA cap)
             | none => "")
          else loc
        if loc2 ≠ "" then
          pcScanGo dateIdx title rest (i + 1) timeStr2 loc2 parts
        else
          pcScanGo dateIdx title rest (i + 1) timeStr2 loc2 (parts ++ [ln])

/-- ingest_agent.parse_caption.  Takes the formatted current year
(`f"{datetime.now().year}"`) as a parameter; returns
(title, datetime, location, description). -/
def parse_caption (nowYear : String) (caption : String) :
    String × Option PyDateTime × String × String :=
  if caption = "" || pyStrip caption = "" then ("", none, "", "")
  else
    let lines := pcLines caption
    if lines.isEmpty then ("", none, "", "")
    else
      let candidates := pcCandidates lines
      let dateRes := pcFindDate nowYear lines 0
      let dateIdx : Option Nat := dateRes.map (fun p => p.1)
      let dateObj : Option PyDate := dateRes.map (fun p => p.2)
      let title1 := truthyOpt (pcTitleRuleA dateIdx lines)
      let title2 := match title1 with
        | some t => some t
        | none => truthyOpt (pcAnnounceTitle lines)
      let title3 := match title2 with
        | some t => some t
        | none => truthyOpt (candidates.find? (fun c =>
            decide (3 ≤ c.data.length) && decide (c.data.length < 60)))
      let title4 := match title3 with
        | some t => some t
        | none => truthyOpt (pcStep5Title lines)
      let scanned := pcScanGo dateIdx title4 lines 0 "" "" []
      let timeStr0 := scanned.1
      let location := scanned.2.1
      let parts := scanned.2.2
      let dateObj2 := match dateObj with
        | some d => some d
        | none => extract_date_from_text nowYear caption
      let timeStr := if timeStr0 = "" then extract_time_from_text caption
        else timeStr0
      let dtObj : Option PyDateTime := match dateObj2 with
        | some d =>
          if timeStr ≠ "" then some (combine_date_time d timeStr)
          else some (PyDateTime.mk d.year d.month d.day 10 0)
        | none => none
      let description := if parts.isEmpty then
          (if 200 < caption.data.length then
            String.mk (caption.data.take 200) ++ "..."
          else caption)
        else pyJoin " " parts
      (pyOrElse title4 "Event", dtObj, location, description)

/-! ## Classifier (classify_agent.py) -/

/-- Whole-word occurrence of `kw` at position `i` of `text`: the compiled
pattern `\b<kw>\b` anchored at `i` (both lists already lowercased). -/
def wordMatchAt (kw text : List Char) (i : Nat) : Bool :=
  decide ((text.drop i).take kw.length = kw) &&
  (i == 0 || !isWordChar (text.getD (i - 1) ' ')) &&
  (i + kw.length == text.length || !isWordChar (text.getD (i + kw.length) ' '))

/-- `pattern.search(text)` for `re.compile(r"\b" + re.escape(keyword) +
r"\b", re.IGNORECASE)`: some position of the lowercased text carries a
whole-word occurrence of the (lowercase) keyword. -/
def wordSearch (kw text : String) : Bool :=
  (List.range (text.data.length + 1)).any
    (fun i => wordMatchAt (lowerCA kw.data) (lowerCA text.data) i)

/-- classify_agent.CATEGORY_KEYWORDS, in the declared (insertion) order of
the Python dict. -/
def CATEGORY_KEYWORDS : List (String × List String) :=
  [("Technical",
    ["hackathon", "workshop", "coding", "tech", "developer", "programming",
     "algorithm", "data science", "ai", "ml"]),
   ("Cultural",
    ["concert", "music", "dance", "drama", "theatre", "fest", "cultural",
     "band", "choir", "art", "creative"]),
   ("Sports",
    ["tournament", "match", "game", "league", "cricket", "football",
     "basketball", "volleyball", "athletics", "race", "sport"]),
   ("Career",
    ["career", "internship", "job", "placement", "seminar",
     "technical talk", "tech talk", "recruitment", "dpi", "resume",
     "workshop"]),
   ("Social",
    ["social", "networking", "meetup", "mixer", "party", "get-together",
     "gathering", "alumni"])]

/-- The loop of classify_agent.classify_text over the family list. -/
def classifyGo (fams : List (String × List String)) (text : String) :
    String :=
  match fams with
  | [] => "Other"
  | (cat, kws) :: rest =>
    if kws.any (fun kw => wordSearch kw text) then cat
    else classifyGo rest text

/-- classify_agent.classify_text: first family (in declared order) with
any matching keyword pattern, else "Other". -/
def classify_text (text : String) : String :=
  classifyGo CATEGORY_KEYWORDS text

/-- The spec's reading: the family name looked up in the keyword table has
at least one whole-word, case-insensitive keyword match in the text. -/
def familyMatches (fam text : String) : Bool :=
  match CATEGORY_KEYWORDS.find? (fun p => p.1 == fam) with
  | some (_, kws) => kws.any (fun kw => wordSearch kw text)
  | none => false

/-- The spec's reading of the classifier: the first family in the fixed
declared order (Technical, Cultural, Sports, Career, Social) with at least
one keyword match, and "Other" when no family matches. -/
def specClassify (text : String) : String :=
  if familyMatches "Technical" text then "Technical"
  else if familyMatches "Cultural" text then "Cultural"
  else if familyMatches "Sports" text then "Sports"
  else if familyMatches "Career" text then "Career"
  else if familyMatches "Social" text then "Social"
  else "Other"

/-! # Theorems -/

theorem pyOrEmpty_eq (s : String) : pyOrEmpty s = s := by
  unfold pyOrEmpty
  split
  · rename_i h
    exact h.symm
  · rfl

theorem updateRowFn_title (r : EventRow) (raw : RawRow) (e : EventRow) :
    (updateRowFn r raw e).title = e.title := by
  unfold updateRowFn
  split <;> rfl

theorem updateRowFn_location (r : EventRow) (raw : RawRow) (e : EventRow) :
    (updateRowFn r raw e).location = e.location := by
  unfold updateRowFn
  split <;> rfl

theorem updateRowFn_datetime (r : EventRow) (raw : RawRow) (e : EventRow) :
    (updateRowFn r raw e).datetime = e.datetime := by
  unfold updateRowFn
  split <;> rfl

theorem rowsClose_updateRowFn (r : EventRow) (raw : RawRow)
    (a b : EventRow) :
    rowsClose (updateRowFn r raw a) (updateRowFn r raw b) = rowsClose a b := by
  simp only [rowsClose, updateRowFn_title, updateRowFn_location,
    updateRowFn_datetime]

theorem allParse_iff (l : List EventRow) :
    allParse l = true ↔ ∀ r ∈ l, (parse_iso_datetime r.datetime).isSome := by
  simp [allParse, List.all_eq_true]

theorem noMutualMatch_cons (r : EventRow) (rs : List EventRow) :
    noMutualMatch (r :: rs) = true ↔
      (∀ x ∈ rs, rowsClose r x = false) ∧ noMutualMatch rs = true := by
  simp [noMutualMatch, List.all_eq_true]

theorem noMutualMatch_append_iff (l : List EventRow) (x : EventRow) :
    noMutualMatch (l ++ [x]) = true ↔
      noMutualMatch l = true ∧ ∀ r ∈ l, rowsClose r x = false := by
  induction l with
  | nil => simp [noMutualMatch]
  | cons a t ih =>
    simp only [List.cons_append, noMutualMatch_cons, ih, List.mem_append,
      List.mem_cons, List.mem_singleton, List.not_mem_nil, or_false]
    constructor
    · rintro ⟨hax, ht, hall⟩
      refine ⟨⟨fun y hy => hax y (Or.inl hy), ht⟩, ?_⟩
      intro r hr
      rcases hr with rfl | hr
      · exact hax x (Or.inr rfl)
      · exact hall r hr
    · rintro ⟨⟨hax, ht⟩, hall⟩
      refine ⟨?_, ht, fun r hr => hall r (Or.inr hr)⟩
      intro y hy
      rcases hy with hy | hy
      · exact hax y hy
      · rw [hy]
        exact hall a (Or.inl rfl)

theorem allParse_map_update (r : EventRow) (raw : RawRow)
    (l : List EventRow) :
    allParse (l.map (updateRowFn r raw)) = allParse l := by
  simp [allParse, List.all_map, Function.comp_def, updateRowFn_datetime]

theorem noMutualMatch_map_update (r : EventRow) (raw : RawRow) :
    ∀ l : List EventRow,
      noMutualMatch (l.map (updateRowFn r raw)) = noMutualMatch l := by
  intro l
  induction l with
  | nil => rfl
  | cons a t ih =>
    simp only [List.map_cons, noMutualMatch, List.all_map, Function.comp_def,
      rowsClose_updateRowFn, ih]

theorem find_none_not_close (evs : List EventRow) (t : String) (dt : Nat)
    (loc : String) (h : find_matching_event evs t dt loc = none)
    (r : EventRow) (hr : r ∈ evs) (x : EventRow)
    (ht : x.title = t) (hl : x.location = loc)
    (hd : parse_iso_datetime x.datetime = some dt) :
    rowsClose r x = false := by
  unfold rowsClose
  by_cases h1 : r.title = x.title
  case neg => simp [h1]
  by_cases h2 : r.location = x.location
  case neg => simp [h2]
  have hmem : r ∈ evs.filter (fun q => q.title == t && q.location == loc) := by
    rw [List.mem_filter]
    refine ⟨hr, ?_⟩
    simp [h1.trans ht, h2.trans hl]
  unfold find_matching_event at h
  rw [List.find?_eq_none] at h
  have hpred := h r hmem
  simp only [Bool.not_eq_true] at hpred
  rw [hd]
  cases hp : parse_iso_datetime r.datetime with
  | none => simp
  | some d =>
    rw [hp] at hpred
    simp only [h1, h2, beq_self_eq_true, Bool.true_and]
    exact hpred

theorem dedupeStep_raw (st : Db × Nat × Nat) (raw : RawRow) :
    (dedupeStep st raw).1.raw = st.1.raw := by
  obtain ⟨db, i, u⟩ := st
  cases hp : parse_iso_datetime raw.datetime with
  | none => simp [dedupeStep, hp]
  | some dt =>
    cases hf : find_matching_event db.evs raw.title dt (pyOrEmpty raw.location) with
    | some r => simp [dedupeStep, hp, hf, updateEvent]
    | none => simp [dedupeStep, hp, hf, insertEventVals]

theorem dedupeStep_inv (st : Db × Nat × Nat) (raw : RawRow)
    (h1 : allParse st.1.evs = true) (h2 : noMutualMatch st.1.evs = true) :
    allParse (dedupeStep st raw).1.evs = true ∧
      noMutualMatch (dedupeStep st raw).1.evs = true := by
  obtain ⟨db, i, u⟩ := st
  cases hp : parse_iso_datetime raw.datetime with
  | none =>
    simp only [dedupeStep, hp]
    exact ⟨h1, h2⟩
  | some dt =>
    cases hf : find_matching_event db.evs raw.title dt (pyOrEmpty raw.location) with
    | some r =>
      simp only [dedupeStep, hp, hf]
      constructor
      · show allParse (updateEvent db r raw).evs = true
        unfold updateEvent
        rw [allParse_map_update]
        exact h1
      · show noMutualMatch (updateEvent db r raw).evs = true
        unfold updateEvent
        rw [noMutualMatch_map_update]
        exact h2
    | none =>
      simp only [dedupeStep, hp, hf]
      constructor
      · show allParse (insertEventVals db raw).evs = true
        unfold insertEventVals
        rw [allParse_iff]
        intro q hq
        rw [List.mem_append] at hq
        rcases hq with hq | hq
        · exact (allParse_iff _).mp h1 q hq
        · rw [List.mem_singleton] at hq
          subst hq
          simp [hp]
      · show noMutualMatch (insertEventVals db raw).evs = true
        unfold insertEventVals
        rw [noMutualMatch_append_iff]
        refine ⟨h2, fun r hr => ?_⟩
        refine find_none_not_close db.evs raw.title dt (pyOrEmpty raw.location)
          hf r hr _ rfl ?_ hp
        show raw.location = pyOrEmpty raw.location
        rw [pyOrEmpty_eq]

theorem dedupeFold_inv (raws : List RawRow) :
    ∀ st : Db × Nat × Nat,
      allParse st.1.evs = true → noMutualMatch st.1.evs = true →
      allParse (raws.foldl dedupeStep st).1.evs = true ∧
        noMutualMatch (raws.foldl dedupeStep st).1.evs = true := by
  induction raws with
  | nil => intro st h1 h2; exact ⟨h1, h2⟩
  | cons a t ih =>
    intro st h1 h2
    rw [List.foldl_cons]
    obtain ⟨g1, g2⟩ := dedupeStep_inv st a h1 h2
    exact ih _ g1 g2

theorem dedupeFold_raw (raws : List RawRow) :
    ∀ st : Db × Nat × Nat, ((raws.foldl dedupeStep st).1).raw = st.1.raw := by
  induction raws with
  | nil => intro st; rfl
  | cons a t ih =>
    intro st
    rw [List.foldl_cons, ih, dedupeStep_raw]

theorem dedupeStepSql_raw_ok (schema : List String) (st st2 : Db × Nat × Nat)
    (raw : RawRow) (h : dedupeStepSql schema st raw = .ok st2) :
    st2.1.raw = st.1.raw := by
  obtain ⟨db, i, u⟩ := st
  cases hp : parse_iso_datetime raw.datetime with
  | none =>
    simp only [dedupeStepSql, hp] at h
    cases h
    rfl
  | some dt =>
    simp only [dedupeStepSql, hp] at h
    repeat' split at h
    all_goals cases h
    all_goals simp [updateEvent, insertEventVals]

theorem dedupeStepSql_raw_err (schema : List String) (st : Db × Nat × Nat)
    (e : String × Db × Nat × Nat) (raw : RawRow)
    (h : dedupeStepSql schema st raw = .error e) :
    e.2.1.raw = st.1.raw := by
  obtain ⟨db, i, u⟩ := st
  cases hp : parse_iso_datetime raw.datetime with
  | none =>
    simp only [dedupeStepSql, hp] at h
    cases h
  | some dt =>
    simp only [dedupeStepSql, hp] at h
    repeat' split at h
    all_goals cases h
    all_goals rfl

theorem dedupeFoldSql_raw (schema : List String) (raws : List RawRow) :
    ∀ st : Db × Nat × Nat,
      (sqlResultDb (raws.foldlM (dedupeStepSql schema) st)).raw = st.1.raw := by
  induction raws with
  | nil => intro st; rfl
  | cons a t ih =>
    intro st
    rw [List.foldlM_cons]
    cases hs : dedupeStepSql schema st a with
    | ok st2 =>
      show (sqlResultDb (t.foldlM (dedupeStepSql schema) st2)).raw = _
      rw [ih st2]
      exact dedupeStepSql_raw_ok schema st st2 a hs
    | error e =>
      show (sqlResultDb (Except.error e)).raw = _
      exact dedupeStepSql_raw_err schema st e a hs

/-- C10: the consolidation pass never mutates its input: whether the
column-checked run completes or aborts with an OperationalError, and in
the value-level run, the `raw_events` table of the resulting database
state is exactly the input one — only the `events` table is written. -/
theorem dedupe_raw_events_table_unmodified (schema : List String) (db : Db) :
    (sqlResultDb (dedupeRunSql schema db)).raw = db.raw ∧
      (dedupe_raw_events db).1.raw = db.raw := by
  constructor
  · exact dedupeFoldSql_raw schema db.raw (db, 0, 0)
  · exact dedupeFold_raw db.raw (db, 0, 0)

/-- C4: at every point during consolidation (after each of the first `n`
candidates is folded in), no two distinct canonical records satisfy the
match predicate against each other (equal title, equal location, stored
datetimes within 5 minutes), provided the starting `events` table already
had that property and parseable datetimes. -/
theorem dedupe_canonical_records_never_mutually_match (db : Db) (n : Nat)
    (h1 : allParse db.evs = true) (h2 : noMutualMatch db.evs = true) :
    noMutualMatch (dedupeRunUpTo db n).1.evs = true :=
  (dedupeFold_inv (db.raw.take n) (db, 0, 0) h1 h2).2

theorem dedupe_canonical_records_never_mutually_match_witness :
    allParse (Db.mk [rawA, rawB5, rawB51] [] 1).evs = true ∧
      noMutualMatch (Db.mk [rawA, rawB5, rawB51] [] 1).evs = true ∧
      noMutualMatch (dedupeRunUpTo (Db.mk [rawA, rawB5, rawB51] [] 1) 3).1.evs
        = true :=
  ⟨by decide, by decide,
    dedupe_canonical_records_never_mutually_match
      (Db.mk [rawA, rawB5, rawB51] [] 1) 3 (by decide) (by decide)⟩

/-- C1 (code bug): the INSERT of dedupe_raw_events names a column `source`
that the `events` table created by init_events_table does not have, and
under the `events` schema of db_init.init_db even the SELECT of
find_matching_event names a missing column `sources`; consequently the
insert path (no existing match) raises sqlite3.OperationalError and aborts
the batch, instead of completing.  A malformed datetime, by contrast, is
skipped as the claim says, and at the value level the skipped row is
followed by normal processing of the next row. -/
theorem dedupe_insert_path_column_bug :
    columnsOk dedupeInsertColumns initEventsTableColumns = false ∧
    columnsOk findSelectColumns dbInitEventsColumns = false ∧
    dedupeRunSql initEventsTableColumns (Db.mk [rawHack] [] 1) =
      .error ("table events has no column named source",
        Db.mk [rawHack] [] 1, 0, 0) ∧
    dedupeRunSql initEventsTableColumns (Db.mk [rawMalformed] [] 1) =
      .ok (Db.mk [rawMalformed] [] 1, 0, 0) ∧
    (dedupe_raw_events (Db.mk [rawMalformed, rawHack] [] 1)).1.evs.length = 1
    := by
  refine ⟨rfl, rfl, rfl, rfl, rfl⟩

/-- C3 (code bug): the matching window itself behaves as claimed — two
candidates with identical title and location match at exactly 5:00 apart
and do not match at 5:01 apart, and at the value level consolidating the
pair yields one canonical record at 5:00 and two at 5:01 — but on the
actual schema the run aborts at the very first INSERT (missing column
`source`), so no second canonical record is ever inserted. -/
theorem dedupe_window_boundary_behaviour :
    find_matching_event [rowA] "Tech Talk"
      ((parse_iso_datetime "2025-06-03T18:05:00").getD 0) "Lab 2" = some rowA ∧
    find_matching_event [rowA] "Tech Talk"
      ((parse_iso_datetime "2025-06-03T18:05:01").getD 0) "Lab 2" = none ∧
    (dedupe_raw_events (Db.mk [rawA, rawB5] [] 1)).1.evs.length = 1 ∧
    (dedupe_raw_events (Db.mk [rawA, rawB51] [] 1)).1.evs.length = 2 ∧
    dedupeRunSql initEventsTableColumns (Db.mk [rawA, rawB5] [] 1) =
      .error ("table events has no column named source",
        Db.mk [rawA, rawB5] [] 1, 0, 0) := by
  refine ⟨rfl, rfl, rfl, rfl, rfl⟩

theorem findSep_le (sep : List Char) :
    ∀ (cs : List Char) (i : Nat),
      findSep sep cs = some i → i + sep.length ≤ cs.length := by
  intro cs
  induction cs with
  | nil =>
    intro i h
    simp only [findSep] at h
    split at h
    · rename_i he
      rw [List.isEmpty_iff] at he
      cases h
      simp [he]
    · cases h
  | cons a t ih =>
    intro i h
    simp only [findSep] at h
    split at h
    · rename_i hpre
      cases h
      have hp := of_decide_eq_true hpre
      have h2 : sep.length ≤ (a :: t).length := by
        conv_lhs => rw [← hp]
        simp [List.length_take]
      simpa using h2
    · simp only [Option.map_eq_some'] at h
      obtain ⟨k, hk, rfl⟩ := h
      have := ih k hk
      simp only [List.length_cons]
      omega

theorem pyStripCA_sub (cs : List Char) : ∀ x ∈ pyStripCA cs, x ∈ cs := by
  intro x hx
  unfold pyStripCA at hx
  rw [List.mem_reverse] at hx
  have hx2 := List.Sublist.mem hx (List.dropWhile_sublist pyIsSpace)
  rw [List.mem_reverse] at hx2
  exact List.Sublist.mem hx2 (List.dropWhile_sublist pyIsSpace)

theorem head_not_space_of_strip {a : Char} {t : List Char}
    (h : List.dropWhile pyIsSpace (a :: t) = a :: t) : pyIsSpace a = false := by
  by_cases hpa : pyIsSpace a
  · rw [List.dropWhile_cons, if_pos hpa] at h
    have hlen := congrArg List.length h
    have hle := List.Sublist.length_le (List.dropWhile_sublist pyIsSpace (l := t))
    simp only [List.length_cons] at hlen
    omega
  · simpa using hpa

theorem rightStrip_stripped (A : List Char)
    (hA : A.dropWhile pyIsSpace = A) :
    ((A.reverse.dropWhile pyIsSpace).reverse).dropWhile pyIsSpace
      = (A.reverse.dropWhile pyIsSpace).reverse := by
  cases hB : (A.reverse.dropWhile pyIsSpace).reverse with
  | nil => rfl
  | cons a t =>
    have hdecomp : A = (a :: t) ++ (A.reverse.takeWhile pyIsSpace).reverse := by
      rw [← hB]
      conv_lhs => rw [← List.reverse_reverse A,
        ← List.takeWhile_append_dropWhile pyIsSpace A.reverse,
        List.reverse_append]
    have hA2 : List.dropWhile pyIsSpace
        (a :: (t ++ (A.reverse.takeWhile pyIsSpace).reverse)) =
        a :: (t ++ (A.reverse.takeWhile pyIsSpace).reverse) := by
      rw [← List.cons_append, ← hdecomp]
      exact hA
    have hpa := head_not_space_of_strip hA2
    rw [List.dropWhile_cons, if_neg (by simp [hpa])]

theorem pyStripCA_idem (cs : List Char) :
    pyStripCA (pyStripCA cs) = pyStripCA cs := by
  unfold pyStripCA
  rw [rightStrip_stripped (cs.dropWhile pyIsSpace)
    (List.dropWhile_idempotent _ _)]
  rw [List.reverse_reverse, List.dropWhile_idempotent]

theorem pyStrip_idem (s : String) : pyStrip (pyStrip s) = pyStrip s :=
  congrArg String.mk (pyStripCA_idem s.data)

theorem findSep_none_of_not_mem (c : Char) (rest : List Char) :
    ∀ cs : List Char, c ∉ cs → findSep (c :: rest) cs = none := by
  intro cs
  induction cs with
  | nil => intro h; simp [findSep]
  | cons a t ih =>
    intro h
    simp only [findSep]
    rw [if_neg, ih (fun hm => h (List.mem_cons_of_mem a hm))]
    · rfl
    · unfold hasPrefixCA
      simp only [decide_eq_true_eq, List.length_cons, List.take_succ_cons,
        List.cons.injEq]
      rintro ⟨rfl, -⟩
      exact h (List.mem_cons_self a t)

theorem findSep_single_none (c : Char) :
    ∀ cs : List Char, findSep [c] cs = none → c ∉ cs := by
  intro cs
  induction cs with
  | nil => intro _ h; simp at h
  | cons a t ih =>
    intro h
    simp only [findSep] at h
    split at h
    · cases h
    · rename_i hpre
      simp only [Option.map_eq_none'] at h
      have hne : a ≠ c := by
        intro hcontr
        apply hpre
        unfold hasPrefixCA
        simp [hcontr]
      intro hm
      rcases List.mem_cons.mp hm with rfl | hm
      · exact hne rfl
      · exact ih h hm

theorem findSep_single_take (c : Char) :
    ∀ (cs : List Char) (i : Nat),
      findSep [c] cs = some i → c ∉ cs.take i := by
  intro cs
  induction cs with
  | nil =>
    intro i h
    simp only [findSep] at h
    split at h
    · rename_i he
      simp at he
    · cases h
  | cons a t ih =>
    intro i h
    simp only [findSep] at h
    split at h
    · cases h
      simp
    · rename_i hpre
      simp only [Option.map_eq_some'] at h
      obtain ⟨j, hj, rfl⟩ := h
      have hne : a ≠ c := by
        intro hcontr
        apply hpre
        unfold hasPrefixCA
        simp [hcontr]
      rw [List.take_succ_cons]
      intro hm
      rcases List.mem_cons.mp hm with rfl | hm
      · exact hne rfl
      · exact ih j hj hm

theorem findSep_append (c : Char) (rest t : List Char) :
    ∀ p : List Char, c ∉ p →
      findSep (c :: rest) (p ++ (c :: rest) ++ t) = some p.length := by
  intro p
  induction p with
  | nil =>
    intro _
    have hpre : hasPrefixCA (c :: rest) ((c :: rest) ++ t) = true := by
      unfold hasPrefixCA
      simp [List.take_left]
    simp only [List.nil_append, List.length_nil]
    cases hct : (c :: rest) ++ t with
    | nil => simp at hct
    | cons x xs =>
      rw [← hct]
      rw [hct, findSep, ← hct, if_pos hpre]
  | cons a p' ih =>
    intro h
    have hne : a ≠ c := fun hcontr => h (hcontr ▸ List.mem_cons_self a p')
    simp only [List.cons_append, findSep, List.append_eq]
    rw [if_neg, ih (fun hm => h (List.mem_cons_of_mem a hm))]
    · simp
    · unfold hasPrefixCA
      simp only [decide_eq_true_eq, List.length_cons, List.take_succ_cons,
        List.cons.injEq]
      rintro ⟨rfl, -⟩
      exact hne rfl

theorem splitGo_roundtrip (c : Char) (rest : List Char) :
    ∀ (pieces : List (List Char)) (f : Nat),
      pieces ≠ [] → (∀ p ∈ pieces, c ∉ p) →
      (joinCA (c :: rest) pieces).length ≤ f →
      splitGo (c :: rest) f (joinCA (c :: rest) pieces) = pieces := by
  intro pieces
  induction pieces with
  | nil => intro f h; exact absurd rfl h
  | cons p ps ih =>
    intro f _ hfree hf
    cases ps with
    | nil =>
      have hnone : findSep (c :: rest) (joinCA (c :: rest) [p]) = none := by
        show findSep (c :: rest) p = none
        exact findSep_none_of_not_mem c rest p (hfree p (by simp))
      cases f with
      | zero => rfl
      | succ f' =>
        show (match findSep (c :: rest) (joinCA (c :: rest) [p]) with
          | none => [joinCA (c :: rest) [p]]
          | some i => (joinCA (c :: rest) [p]).take i ::
              splitGo (c :: rest) f'
                ((joinCA (c :: rest) [p]).drop (i + (c :: rest).length)))
          = [p]
        rw [hnone]
        rfl
    | cons q qs =>
      have hjoin : joinCA (c :: rest) (p :: q :: qs)
          = p ++ (c :: rest) ++ joinCA (c :: rest) (q :: qs) := rfl
      have hfree_p : c ∉ p := hfree p (by simp)
      have hfind := findSep_append c rest (joinCA (c :: rest) (q :: qs))
        p hfree_p
      cases f with
      | zero =>
        exfalso
        have h1 : 0 < (joinCA (c :: rest) (p :: q :: qs)).length := by
          rw [hjoin]
          simp [List.length_append]
        omega
      | succ f' =>
        rw [hjoin]
        show (match findSep (c :: rest) (p ++ (c :: rest) ++ joinCA (c :: rest) (q :: qs)) with
          | none => [p ++ (c :: rest) ++ joinCA (c :: rest) (q :: qs)]
          | some i => (p ++ (c :: rest) ++ joinCA (c :: rest) (q :: qs)).take i ::
              splitGo (c :: rest) f'
                ((p ++ (c :: rest) ++ joinCA (c :: rest) (q :: qs)).drop
                  (i + (c :: rest).length)))
          = p :: q :: qs
        simp only [hfind]
        have htake : (p ++ (c :: rest) ++ joinCA (c :: rest) (q :: qs)).take
            p.length = p := by
          rw [List.append_assoc, List.take_left]
        have hdrop : (p ++ (c :: rest) ++ joinCA (c :: rest) (q :: qs)).drop
            (p.length + (c :: rest).length) = joinCA (c :: rest) (q :: qs) := by
          have h2 := List.drop_left (p ++ (c :: rest))
            (joinCA (c :: rest) (q :: qs))
          rwa [List.length_append] at h2
        rw [htake, hdrop]
        have hlen : (joinCA (c :: rest) (q :: qs)).length ≤ f' := by
          rw [hjoin] at hf
          simp only [List.length_append, List.length_cons] at hf
          omega
        rw [ih f' (by simp) (fun x hx => hfree x (List.mem_cons_of_mem p hx))
          hlen]

theorem pySplit_pyJoin (c : Char) (rest : List Char) (sep : String)
    (hs : sep.data = c :: rest) (l : List String) (hne : l ≠ [])
    (hfree : ∀ x ∈ l, c ∉ x.data) :
    pySplit (pyJoin sep l) sep = l := by
  unfold pySplit pyJoin
  rw [hs]
  show (splitCA (c :: rest) (joinCA (c :: rest) (l.map String.data))).map
    String.mk = l
  unfold splitCA
  rw [if_neg (by simp)]
  rw [splitGo_roundtrip c rest (l.map String.data) _
    (by simpa using hne)
    (by
      intro p hp
      rw [List.mem_map] at hp
      obtain ⟨x, hx, rfl⟩ := hp
      exact hfree x hx)
    (Nat.le_refl _)]
  rw [List.map_map]
  have : ∀ x ∈ l, (String.mk ∘ String.data) x = x := fun x _ => rfl
  calc l.map (String.mk ∘ String.data) = l.map (fun a => a) :=
        List.map_congr_left this
    _ = l := List.map_id' l

theorem splitGo_single_not_mem (c : Char) :
    ∀ (f : Nat) (cs : List Char), cs.length ≤ f →
      ∀ piece ∈ splitGo [c] f cs, c ∉ piece := by
  intro f
  induction f with
  | zero =>
    intro cs hcs piece hp
    have hnil : cs = [] := List.length_eq_zero.mp (Nat.le_zero.mp hcs)
    subst hnil
    simp only [splitGo, List.mem_singleton] at hp
    subst hp
    simp
  | succ f' ih =>
    intro cs hcs piece hp
    simp only [splitGo] at hp
    cases hfind : findSep [c] cs with
    | none =>
      rw [hfind] at hp
      simp only [List.mem_singleton] at hp
      rw [hp]
      exact findSep_single_none c cs hfind
    | some i =>
      rw [hfind] at hp
      simp only [List.mem_cons] at hp
      rcases hp with rfl | hp
      · exact findSep_single_take c cs i hfind
      · refine ih (cs.drop (i + 1)) ?_ piece hp
        have hb := findSep_le [c] cs i hfind
        simp only [List.length_cons, List.length_nil] at hb
        simp only [List.length_drop]
        omega

theorem pySplit_comma_free (s : String) :
    ∀ x ∈ pySplit s ",", ',' ∉ x.data := by
  intro x hx
  unfold pySplit at hx
  rw [List.mem_map] at hx
  obtain ⟨piece, hpiece, rfl⟩ := hx
  show ',' ∉ piece
  unfold splitCA at hpiece
  rw [if_neg (by simp)] at hpiece
  exact splitGo_single_not_mem ',' s.data.length s.data (Nat.le_refl _)
    piece hpiece

theorem sourcesList_elem_spec (s : String) :
    ∀ x ∈ sourcesList s, pyStrip x = x ∧ x ≠ "" ∧ ',' ∉ x.data := by
  intro x hx
  unfold sourcesList at hx
  rw [List.mem_filter] at hx
  obtain ⟨hx1, hx2⟩ := hx
  rw [List.mem_map] at hx1
  obtain ⟨y, hy, rfl⟩ := hx1
  refine ⟨pyStrip_idem y, by simpa using hx2, ?_⟩
  intro hc
  have hc2 : ',' ∈ y.data := pyStripCA_sub y.data ',' hc
  exact pySplit_comma_free s y hy hc2

theorem fragmentsList_elem_spec (s : String) :
    ∀ x ∈ fragmentsList s, pyStrip x = x ∧ x ≠ "" := by
  intro x hx
  unfold fragmentsList at hx
  rw [List.mem_filter] at hx
  obtain ⟨hx1, hx2⟩ := hx
  rw [List.mem_map] at hx1
  obtain ⟨y, hy, rfl⟩ := hx1
  exact ⟨pyStrip_idem y, by simpa using hx2⟩

theorem sourcesList_join (l : List String)
    (hel : ∀ x ∈ l, pyStrip x = x ∧ x ≠ "" ∧ ',' ∉ x.data) :
    sourcesList (pyJoin "," l) = l := by
  cases l with
  | nil => rfl
  | cons a t =>
    unfold sourcesList
    rw [pySplit_pyJoin ',' [] "," rfl (a :: t) (by simp)
      (fun x hx => (hel x hx).2.2)]
    have h1 : (a :: t).map pyStrip = a :: t := by
      calc (a :: t).map pyStrip = (a :: t).map (fun x => x) :=
            List.map_congr_left (fun x hx => (hel x hx).1)
        _ = a :: t := List.map_id' _
    rw [h1]
    rw [List.filter_eq_self.mpr]
    intro x hx
    simpa using (hel x hx).2.1

theorem fragmentsList_join (l : List String)
    (hel : ∀ x ∈ l, pyStrip x = x ∧ x ≠ "" ∧ '\n' ∉ x.data) :
    fragmentsList (pyJoin descSep l) = l := by
  cases l with
  | nil => rfl
  | cons a t =>
    unfold fragmentsList
    rw [pySplit_pyJoin '\n' ['-', '-', '-', '\n'] descSep rfl (a :: t)
      (by simp) (fun x hx => (hel x hx).2.2)]
    have h1 : (a :: t).map pyStrip = a :: t := by
      calc (a :: t).map pyStrip = (a :: t).map (fun x => x) :=
            List.map_congr_left (fun x hx => (hel x hx).1)
        _ = a :: t := List.map_id' _
    rw [h1]
    rw [List.filter_eq_self.mpr]
    intro x hx
    simpa using (hel x hx).2.1

theorem sourcesList_mergeSources (ex s : String)
    (hs1 : pyStrip s = s) (hs2 : s ≠ "") (hs3 : ',' ∉ s.data) :
    sourcesList (mergeSources ex s) =
      (if (sourcesList ex).contains s then sourcesList ex
       else sourcesList ex ++ [s]) := by
  simp only [mergeSources]
  by_cases hc : (sourcesList ex).contains s
  · rw [if_pos hc]
    exact sourcesList_join _ (sourcesList_elem_spec ex)
  · rw [if_neg hc]
    refine sourcesList_join _ ?_
    intro x hx
    rw [List.mem_append, List.mem_singleton] at hx
    rcases hx with hx | rfl
    · exact sourcesList_elem_spec ex x hx
    · exact ⟨hs1, hs2, hs3⟩

theorem fragmentsList_mergeDesc (exD d : String)
    (hfNl : ∀ x ∈ fragmentsList exD, '\n' ∉ x.data)
    (hd : '\n' ∉ (pyStrip d).data) :
    fragmentsList (mergeDesc exD d) =
      (if pyStrip d != "" && !((fragmentsList exD).contains (pyStrip d))
       then fragmentsList exD ++ [pyStrip d] else fragmentsList exD) := by
  simp only [mergeDesc]
  have hel : ∀ x ∈ fragmentsList exD, pyStrip x = x ∧ x ≠ "" ∧ '\n' ∉ x.data :=
    fun x hx => ⟨(fragmentsList_elem_spec exD x hx).1,
      (fragmentsList_elem_spec exD x hx).2, hfNl x hx⟩
  by_cases hc : (pyStrip d != "" && !((fragmentsList exD).contains (pyStrip d)))
    = true
  · rw [if_pos hc]
    refine fragmentsList_join _ ?_
    intro x hx
    rw [List.mem_append, List.mem_singleton] at hx
    rcases hx with hx | rfl
    · exact hel x hx
    · refine ⟨pyStrip_idem d, ?_, hd⟩
      rw [Bool.and_eq_true] at hc
      simpa using hc.1
  · rw [if_neg hc]
    exact fragmentsList_join _ hel

/-- C6: the merge step of the consolidation pass keeps the sources list
and the description fragment list duplicate-free (by exact, case-sensitive
comparison of trimmed text), and merging a source id or a trimmed
description that already occurs leaves exactly one occurrence of it.  The
hypotheses state well-formedness of the merged candidate: a trimmed,
non-empty, comma-free source handle, and a description whose trimmed text
contains no newline (so it cannot collide with the fragment separator);
fragments already stored are trimmed, non-empty and separator-free by
construction. -/
theorem merge_dedup_sources_and_fragments (ex s exD d : String)
    (hexN : (sourcesList ex).Nodup)
    (hs1 : pyStrip s = s) (hs2 : s ≠ "") (hs3 : ',' ∉ s.data)
    (hfN : (fragmentsList exD).Nodup)
    (hfNl : ∀ x ∈ fragmentsList exD, '\n' ∉ x.data)
    (hd : '\n' ∉ (pyStrip d).data) :
    (sourcesList (mergeSources ex s)).Nodup ∧
    (fragmentsList (mergeDesc exD d)).Nodup ∧
    (s ∈ sourcesList ex →
      (sourcesList (mergeSources ex s)).count s = 1) ∧
    (pyStrip d ∈ fragmentsList exD →
      (fragmentsList (mergeDesc exD d)).count (pyStrip d) = 1) := by
  have hsrc := sourcesList_mergeSources ex s hs1 hs2 hs3
  have hfrag := fragmentsList_mergeDesc exD d hfNl hd
  refine ⟨?_, ?_, ?_, ?_⟩
  · rw [hsrc]
    split
    · exact hexN
    · rename_i hc
      rw [List.nodup_append]
      refine ⟨hexN, List.nodup_singleton s, ?_⟩
      rw [List.disjoint_singleton]
      intro hmem
      exact hc (List.elem_iff.mpr hmem)
  · rw [hfrag]
    split
    · rename_i hc
      rw [Bool.and_eq_true] at hc
      rw [List.nodup_append]
      refine ⟨hfN, List.nodup_singleton _, ?_⟩
      rw [List.disjoint_singleton]
      intro hmem
      have h2 := hc.2
      rw [Bool.not_eq_true'] at h2
      simp at h2
      exact h2 hmem
    · exact hfN
  · intro hmem
    rw [hsrc, if_pos (List.elem_iff.mpr hmem)]
    exact List.count_eq_one_of_mem hexN hmem
  · intro hmem
    have hcond : (pyStrip d != ""
        && !((fragmentsList exD).contains (pyStrip d))) = false := by
      simp only [List.elem_iff.mpr hmem, Bool.not_true, Bool.and_false]
    rw [hfrag]
    simp only [hcond, Bool.false_eq_true, if_false]
    exact List.count_eq_one_of_mem hfN hmem

theorem merge_dedup_sources_and_fragments_witness :
    ((sourcesList "s1,s2").Nodup ∧ pyStrip "s1" = "s1" ∧ ("s1" : String) ≠ ""
      ∧ ',' ∉ ("s1" : String).data
      ∧ (fragmentsList "alpha\n---\nbeta").Nodup
      ∧ (∀ x ∈ fragmentsList "alpha\n---\nbeta", '\n' ∉ x.data)
      ∧ '\n' ∉ (pyStrip " beta ").data) ∧
    (sourcesList (mergeSources "s1,s2" "s1")).Nodup ∧
    (fragmentsList (mergeDesc "alpha\n---\nbeta" " beta ")).Nodup ∧
    (sourcesList (mergeSources "s1,s2" "s1")).count "s1" = 1 ∧
    (fragmentsList (mergeDesc "alpha\n---\nbeta" " beta ")).count
      (pyStrip " beta ") = 1 := by
  have h := merge_dedup_sources_and_fragments "s1,s2" "s1"
    "alpha\n---\nbeta" " beta " (by decide) (by decide) (by decide)
    (by decide) (by decide) (by decide) (by decide)
  exact ⟨⟨by decide, by decide, by decide, by decide, by decide, by decide,
    by decide⟩, h.1, h.2.1, h.2.2.1 (by decide), h.2.2.2 (by decide)⟩

/-- C5 (code bug): at the value level, consolidating matching candidates
A then B into an empty registry produces one canonical record whose
sources list and fragment list are permutations of those produced by
consolidating B then A; on the actual schema both orders abort at the
first INSERT (missing column `source`) and produce no canonical record at
all. -/
theorem dedupe_merge_order_commutes_concrete :
    (dedupe_raw_events (Db.mk [rawA, rawB5] [] 1)).1.evs.length = 1 ∧
    (dedupe_raw_events (Db.mk [rawB5, rawA] [] 1)).1.evs.length = 1 ∧
    sameSet
      (sourcesList (headEvent
        (dedupe_raw_events (Db.mk [rawA, rawB5] [] 1)).1.evs).sources)
      (sourcesList (headEvent
        (dedupe_raw_events (Db.mk [rawB5, rawA] [] 1)).1.evs).sources) = true ∧
    sameSet
      (fragmentsList (headEvent
        (dedupe_raw_events (Db.mk [rawA, rawB5] [] 1)).1.evs).description)
      (fragmentsList (headEvent
        (dedupe_raw_events (Db.mk [rawB5, rawA] [] 1)).1.evs).description)
      = true ∧
    dedupeRunSql initEventsTableColumns (Db.mk [rawB5, rawA] [] 1) =
      .error ("table events has no column named source",
        Db.mk [rawB5, rawA] [] 1, 0, 0) := by
  refine ⟨rfl, rfl, by decide, by decide, rfl⟩

/-- C7: classify_text returns the first category family in the fixed
declared order (Technical, Cultural, Sports, Career, Social) that has at
least one whole-word, case-insensitive keyword match, and returns "Other"
when no family matches; and any text with a whole-word occurrence of
"hackathon" (in particular one also containing "internship") is classified
"Technical". -/
theorem classify_first_family_order :
    (∀ text, classify_text text = specClassify text) ∧
    (∀ text, wordSearch "hackathon" text = true →
      wordSearch "internship" text = true →
      classify_text text = "Technical") := by
  constructor
  · intro text
    rfl
  · intro text h1 _
    show (if (["hackathon", "workshop", "coding", "tech", "developer",
      "programming", "algorithm", "data science", "ai", "ml"].any
        (fun kw => wordSearch kw text)) = true then "Technical"
      else classifyGo (CATEGORY_KEYWORDS.drop 1) text) = "Technical"
    simp [h1]

theorem pyOrElse_ne_empty (o : Option String) :
    pyOrElse o "Event" ≠ "" := by
  cases o with
  | none => decide
  | some t =>
    show (if t = "" then "Event" else t) ≠ ""
    split
    · decide
    · rename_i h
      exact h

/-- C2 (counterexample): parse_caption returns an empty title for the
empty caption, contradicting "returns a record whose title is non-empty"
for every input; and for a caption of decorative symbols only (a total
failure: placeholder title, no date, empty location) the description is
the space-join of the lines, not the (possibly truncated) input. -/
theorem parse_caption_empty_title_counterexample :
    parse_caption "2026" "" = ("", none, "", "") ∧
    parse_caption "2026" "🎉🎉\n🎉" = ("Event", none, "", "🎉🎉 🎉") ∧
    ("🎉🎉 🎉" : String) ≠ "🎉🎉\n🎉" := by
  refine ⟨rfl, rfl, by decide⟩

/-- C2 (amended): parse_caption is a total function (never raises); a
caption that is empty, all whitespace, or without any non-empty line
yields the empty record ("", no date, "", ""); for every other caption
the returned title is non-empty (the placeholder "Event" is used when no
heuristic produced a title). -/
theorem parse_caption_contract_amended (nowYear caption : String) :
    (caption = "" ∨ pyStrip caption = "" ∨ pcLines caption = [] →
      parse_caption nowYear caption = ("", none, "", "")) ∧
    (caption ≠ "" → pyStrip caption ≠ "" → pcLines caption ≠ [] →
      (parse_caption nowYear caption).1 ≠ "") := by
  constructor
  · intro h
    unfold parse_caption
    rcases h with h | h | h
    · simp [h]
    · simp [h]
    · by_cases hb : (caption = "" || pyStrip caption = "") = true
      · simp [hb]
      · simp only [hb, Bool.false_eq_true, if_false]
        simp [h]
  · intro h1 h2 h3
    unfold parse_caption
    have hb : (caption = "" || pyStrip caption = "") = false := by
      simp [h1, h2]
    simp only [hb, Bool.false_eq_true, if_false]
    have hl : (pcLines caption).isEmpty = false := by
      simpa [List.isEmpty_iff] using h3
    simp only [hl, Bool.false_eq_true, if_false]
    exact pyOrElse_ne_empty _

theorem parse_caption_contract_amended_witness :
    parse_caption "2026" " \t " = ("", none, "", "") ∧
    (parse_caption "2026" "🎉🎉\n🎉").1 ≠ "" :=
  ⟨(parse_caption_contract_amended "2026" " \t ").1
      (Or.inr (Or.inl (by decide))),
    (parse_caption_contract_amended "2026" "🎉🎉\n🎉").2
      (by decide) (by decide) (by decide)⟩

/-- C8 (code bug): on the spec's own example caption the title is
resolved by rule (a) from the line above the date line, yet that line
("🎉 Hack Night") flows into the description — the skip compares the
cleaned title "Hack Night" with the raw line, so they differ whenever the
line carried a decorative symbol.  Moreover the venue line is consumed by
nothing at all (a time was already found, so `if event_time_str:
continue` skips it): it neither becomes the location nor flows into the
description, although the claim says unconsumed lines always do. -/
theorem parse_caption_title_line_leaks_into_description :
    pcLines capC9 = ["🎉 Hack Night", "📅 Date: 3rd June",
      "🕒 Time: 6 PM", "📍 Venue: Lab 2"] ∧
    pcFindDate "2026" (pcLines capC9) 0 = some (1, PyDate.mk 2026 6 3) ∧
    pcTitleRuleA (some 1) (pcLines capC9) = some "Hack Night" ∧
    pcScanGo (some 1) (some "Hack Night") (pcLines capC9) 0 "" "" [] =
      ("6 PM", "", ["🎉 Hack Night", "📅 Date: 3rd June"]) ∧
    (parse_caption "2026" capC9).2.2.2 = "🎉 Hack Night 📅 Date: 3rd June" ∧
    (parse_caption "2026" capC9).2.2.1 = "" := by
  refine ⟨rfl, rfl, rfl, rfl, rfl, rfl⟩

/-- C9 (code bug): the spec's "Date fallback" caption parses to title
"Hack Night" and June 3 of the current year (here 2026) at 18:00 as
claimed, but the location comes back empty instead of "Lab 2": the time
line is processed first, and once `event_time_str` is set the scan
skips every later line before the venue patterns are tried. -/
theorem parse_caption_hack_night_example :
    parse_caption "2026" capC9 =
      ("Hack Night", some (PyDateTime.mk 2026 6 3 18 0), "",
       "🎉 Hack Night 📅 Date: 3rd June") := by
  rfl

theorem classify_first_family_order_witness :
    wordSearch "hackathon" "Campus hackathon with internship offers!"
      = true ∧
    wordSearch "internship" "Campus hackathon with internship offers!"
      = true ∧
    classify_text "Campus hackathon with internship offers!"
      = "Technical" :=
  ⟨by decide, by decide,
    classify_first_family_order.2
      "Campus hackathon with internship offers!" (by decide) (by decide)⟩

end CampusEvents
